import Mathlib

/-!
Verification of the deduplication-and-aggregation pipeline of
`stock_news_fetcher.py`.

The embedding mirrors the Python source:
* `load_seen_news` / `save_seen_news` (the Seen-Set Store),
* `get_stock_tickers` (the Ticker List Provider),
* the collection loop of `main` (`processArticle`, `processTicker`,
  `runCollect`, `mainRun`).

External effects are made explicit: the backing JSON file is a `Storage`
value, the news adapter is a function `String → Except Unit (List RawArticle)`
(`.error` standing for a raised exception), the `STOCK_LIST` environment
variable is an `Option String`, and a file-write that may fail is a
`WriteOutcome`.
-/

deriving instance DecidableEq for Except

namespace StockNews

/-- State of the persisted seen-news JSON file.  `missing` is a
`FileNotFoundError` on open; `invalid` is an empty or corrupt file whose
parse raises `json.JSONDecodeError`; `stored l` is a valid JSON array of
strings. -/
inductive Storage where
  | missing : Storage
  | invalid : Storage
  | stored : List String → Storage
deriving DecidableEq

/-- `load_seen_news`: returns `set(json.load(f))`, and an empty set when the
file is missing or the JSON parse fails (both exceptions are caught).  The
function is total: no error escapes. -/
def load_seen_news : Storage → Finset String
  | Storage.missing => ∅
  | Storage.invalid => ∅
  | Storage.stored l => l.toFinset

/-- `save_seen_news`: writes `json.dump(list(seen_urls), f)`.  The iteration
order of a Python `set` is unspecified, so the enumeration `list(seen_urls)`
is passed explicitly; the stored content is exactly that array. -/
def save_seen_news (enum : List String) : Storage :=
  Storage.stored enum

/-- Outcome of opening/writing the seen-news file: either the write
succeeds, or the OS raises an error (disk full, permission denied, ...). -/
inductive WriteOutcome where
  | ok : WriteOutcome
  | failed : String → WriteOutcome
deriving DecidableEq

/-- `save_seen_news` with the fallible file write made explicit.  The Python
function body has no `try`/`except`, so a failing write propagates its
error to the caller unchanged. -/
def save_seen_news_write (w : WriteOutcome) (enum : List String) :
    Except String Storage :=
  match w with
  | WriteOutcome.ok => Except.ok (save_seen_news enum)
  | WriteOutcome.failed e => Except.error e

/-- Python `str.isspace` characters relevant to `str.strip()` (ASCII
whitespace). -/
def pyIsSpace (c : Char) : Bool :=
  c = ' ' || c = '\t' || c = '\n' || c = '\r' || c = '\x0b' || c = '\x0c'

/-- Python `str.strip()`: drop whitespace from both ends. -/
def pyStrip (cs : List Char) : List Char :=
  ((cs.dropWhile pyIsSpace).reverse.dropWhile pyIsSpace).reverse

/-- Python `str.split(',')`: split on every comma, keeping empty fields;
`"".split(',') == ['']`. -/
def splitOnComma : List Char → List (List Char)
  | [] => [[]]
  | c :: rest =>
    let r := splitOnComma rest
    if c = ',' then [] :: r
    else
      match r with
      | [] => [[c]]
      | g :: gs => (c :: g) :: gs

/-- `get_stock_tickers`: reads `STOCK_LIST` from the environment.  When the
variable is unset or the empty string (both falsy), prints a warning and
returns `[]`; the Boolean records whether the warning was printed.
Otherwise returns `[ticker.strip() for ticker in stock_list_str.split(',')]`. -/
def get_stock_tickers (env : Option String) : Bool × List String :=
  match env with
  | none => (true, [])
  | some s =>
    if s = "" then (true, [])
    else (false, (splitOnComma s.data).map (fun cs => String.mk (pyStrip cs)))

/-- The `'content'` sub-dictionary of a raw provider record; each field may
be absent (`dict.get` returns `None`). -/
structure RawContent where
  link : Option String
  title : Option String
  summary : Option String
deriving DecidableEq

/-- One raw item returned by `yf.Ticker(t).news`; `article.get('content', {})`
yields `{}` when the key is absent, modelled by `none`. -/
structure RawArticle where
  content : Option RawContent
deriving DecidableEq

/-- `article.get('content', {}).get('link', 'data not available')`. -/
def extractUrl (a : RawArticle) : String :=
  match a.content with
  | none => "data not available"
  | some c => c.link.getD ("data not available")

/-- `article.get('content', {}).get('title')`. -/
def articleTitle (a : RawArticle) : Option String :=
  match a.content with
  | none => none
  | some c => c.title

/-- `article.get('content', {}).get('summary')`. -/
def articleSummary (a : RawArticle) : Option String :=
  match a.content with
  | none => none
  | some c => c.summary

/-- The `article_data` dictionary `{'title': ..., 'summary': ...}`. -/
structure Article where
  title : Option String
  summary : Option String
deriving DecidableEq

/-- `article_data` built from a raw item. -/
def extractData (a : RawArticle) : Article :=
  { title := articleTitle a, summary := articleSummary a }

/-- Python truthiness of `article_data['title']`: `None` and `""` are falsy. -/
def titleTruthy : Option String → Bool
  | none => false
  | some s => if s = "" then false else true

/-- Lookup in the insertion-ordered dictionary
`all_new_articles_by_ticker`, modelled as an association list. -/
def batchLookup : List (String × List Article) → String → Option (List Article)
  | [], _ => none
  | (k, v) :: rest, q => if k = q then some v else batchLookup rest q

/-- `if ticker_symbol not in all_new_articles_by_ticker:
all_new_articles_by_ticker[ticker_symbol] = []` — a new key is appended at
the end (Python dicts preserve insertion order). -/
def batchInit (b : List (String × List Article)) (t : String) :
    List (String × List Article) :=
  match batchLookup b t with
  | some _ => b
  | none => b ++ [(t, [])]

/-- `all_new_articles_by_ticker[ticker_symbol].append(article_data)`: the
entry under key `t` gains `x` at the end of its list; other entries are
unchanged. -/
def batchAppend : List (String × List Article) → String → Article →
    List (String × List Article)
  | [], _, _ => []
  | (k, v) :: rest, t, x =>
    if k = t then (k, v ++ [x]) :: batchAppend rest t x
    else (k, v) :: batchAppend rest t x

/-- In-memory state of the collection loop: the dictionary under
construction and the mutable `seen_urls` set. -/
structure RunState where
  batch : List (String × List Article)
  seen : Finset String
deriving DecidableEq

/-- The body of `for article in news_list`, in source order: extract the
URL, initialise the ticker's dictionary entry (for every article, before any
title check), build `article_data`, append it only when the title is truthy,
and mark the URL seen unconditionally. -/
def processArticle (t : String) (st : RunState) (a : RawArticle) : RunState :=
  let url := extractUrl a
  let b1 := batchInit st.batch t
  let data := extractData a
  let b2 := if titleTruthy data.title then batchAppend b1 t data else b1
  { batch := b2, seen := insert url st.seen }

/-- The body of `for ticker_symbol in tickers`: the adapter call sits inside
`try`/`except Exception`, so a raised error (`.error`) only skips this
ticker; `if not news_list: continue` skips an empty result. -/
def processTicker (fetch : String → Except Unit (List RawArticle))
    (st : RunState) (t : String) : RunState :=
  match fetch t with
  | Except.error _ => st
  | Except.ok news =>
    if news.isEmpty then st
    else news.foldl (processArticle t) st

/-- Step 1 of `main`: collect all articles over the ticker list, starting
from the seen set loaded at run start and an empty dictionary. -/
def runCollect (fetch : String → Except Unit (List RawArticle))
    (tickers : List String) (seen0 : Finset String) : RunState :=
  tickers.foldl (processTicker fetch) { batch := [], seen := seen0 }

/-- Observable outcome of one invocation of `main`. -/
structure MainResult where
  noNewReported : Bool
  batch : List (String × List Article)
  seenAfter : Finset String
  saveInvoked : Bool
deriving DecidableEq

/-- Step 2 of `main`: `if not all_new_articles_by_ticker:` report that no
new articles were found and return; otherwise announce the analysis.  The
analysis step and the `save_seen_news` call (Step 3) are commented out in
the source, so neither branch invokes the save. -/
def mainFinish (st : RunState) : MainResult :=
  if st.batch.isEmpty then
    { noNewReported := true, batch := st.batch, seenAfter := st.seen,
      saveInvoked := false }
  else
    { noNewReported := false, batch := st.batch, seenAfter := st.seen,
      saveInvoked := false }

/-- `main`: read tickers from the environment, load the seen set, run the
collection loop, then finish as in Step 2. -/
def mainRun (env : Option String)
    (fetch : String → Except Unit (List RawArticle))
    (storage : Storage) : MainResult :=
  mainFinish
    (runCollect fetch (get_stock_tickers env).2 (load_seen_news storage))

/-- Looking up in a concatenation: the left dictionary wins. -/
theorem batchLookup_append (b1 b2 : List (String × List Article)) (q : String) :
    batchLookup (b1 ++ b2) q =
      match batchLookup b1 q with
      | some v => some v
      | none => batchLookup b2 q := by
  induction b1 with
  | nil => simp [batchLookup]
  | cons p rest ih =>
    obtain ⟨k, v⟩ := p
    by_cases h : k = q <;> simp [batchLookup, h, ih]

/-- After `batchInit`, the initialised ticker is present, holding its old
collection (or an empty one when it was absent). -/
theorem batchLookup_batchInit_self (b : List (String × List Article)) (t : String) :
    batchLookup (batchInit b t) t = some ((batchLookup b t).getD []) := by
  unfold batchInit
  cases h : batchLookup b t with
  | some v => simp [h]
  | none => simp [h, batchLookup_append, batchLookup]

/-- The entries of other tickers are untouched by `batchInit`. -/
theorem batchLookup_batchInit_ne (b : List (String × List Article)) (t q : String)
    (hq : q ≠ t) : batchLookup (batchInit b t) q = batchLookup b q := by
  unfold batchInit
  cases h : batchLookup b t with
  | some v => rfl
  | none =>
    rw [batchLookup_append]
    cases h2 : batchLookup b q with
    | some v => rfl
    | none => simp [batchLookup, Ne.symm hq]

/-- Lookup after `batchAppend`: the target ticker's collection gains the
new article; everything else is unchanged (and an absent key stays absent). -/
theorem batchLookup_batchAppend (b : List (String × List Article)) (t : String)
    (x : Article) (q : String) :
    batchLookup (batchAppend b t x) q =
      if q = t then (batchLookup b q).map (fun v => v ++ [x])
      else batchLookup b q := by
  induction b with
  | nil => simp [batchAppend, batchLookup]
  | cons p rest ih =>
    obtain ⟨k, v⟩ := p
    by_cases hkt : k = t
    · subst hkt
      by_cases hkq : k = q
      · subst hkq
        simp [batchAppend, batchLookup, ih]
      · simp [batchAppend, batchLookup, hkq, Ne.symm hkq, ih]
    · by_cases hkq : k = q
      · subst hkq
        simp [batchAppend, batchLookup, hkt, Ne.symm hkt]
      · simp [batchAppend, batchLookup, hkt, hkq, ih]

/-- A ticker is present after `batchInit` iff it was present before or it
is the initialised ticker. -/
theorem batchInit_mem (b : List (String × List Article)) (t q : String) :
    batchLookup (batchInit b t) q ≠ none ↔
      (batchLookup b q ≠ none ∨ q = t) := by
  by_cases hq : q = t
  · subst hq
    simp [batchLookup_batchInit_self]
  · rw [batchLookup_batchInit_ne b t q hq]
    simp [hq]

/-- `batchAppend` neither adds nor removes keys. -/
theorem batchAppend_mem (b : List (String × List Article)) (t : String)
    (x : Article) (q : String) :
    batchLookup (batchAppend b t x) q ≠ none ↔ batchLookup b q ≠ none := by
  rw [batchLookup_batchAppend]
  by_cases hq : q = t <;> simp [hq, Option.map_eq_none']

/-- Each article marks exactly its extracted URL as seen. -/
theorem processArticle_seen (t : String) (st : RunState) (a : RawArticle) :
    (processArticle t st a).seen = insert (extractUrl a) st.seen := by
  unfold processArticle
  by_cases h : titleTruthy (extractData a).title <;> simp [h]

/-- Processing one article of ticker `t` makes exactly `t` present (for
every article, titled or not), preserving all previously present keys. -/
theorem processArticle_mem (t : String) (st : RunState) (a : RawArticle)
    (q : String) :
    batchLookup (processArticle t st a).batch q ≠ none ↔
      (batchLookup st.batch q ≠ none ∨ q = t) := by
  unfold processArticle
  by_cases h : titleTruthy (extractData a).title <;>
    simp [h, batchAppend_mem, batchInit_mem]

/-- `batchInit` does not change the contents of any ticker's collection
(an absent ticker's collection reads as empty before and after). -/
theorem batchInit_getD (b : List (String × List Article)) (t q : String) :
    (batchLookup (batchInit b t) q).getD [] = (batchLookup b q).getD [] := by
  by_cases hq : q = t
  · subst hq
    rw [batchLookup_batchInit_self]
    rfl
  · rw [batchLookup_batchInit_ne b t q hq]

/-- An article whose title is falsy (`None` or `""`) changes no ticker's
collection contents. -/
theorem processArticle_getD_untitled (t : String) (st : RunState)
    (a : RawArticle) (h : titleTruthy (articleTitle a) = false) (q : String) :
    (batchLookup (processArticle t st a).batch q).getD [] =
      (batchLookup st.batch q).getD [] := by
  unfold processArticle
  have h2 : titleTruthy (extractData a).title = false := h
  simp only [h2, Bool.false_eq_true, if_false]
  exact batchInit_getD st.batch t q

/-- An article whose title is truthy is appended, with its extracted title
and summary, at the end of its ticker's collection. -/
theorem processArticle_getD_titled (t : String) (st : RunState)
    (a : RawArticle) (h : titleTruthy (articleTitle a) = true) :
    (batchLookup (processArticle t st a).batch t).getD [] =
      (batchLookup st.batch t).getD [] ++ [extractData a] := by
  unfold processArticle
  have h2 : titleTruthy (extractData a).title = true := h
  simp only [h2, if_true]
  rw [batchLookup_batchAppend]
  simp [batchLookup_batchInit_self]

/-- Folding the articles of ticker `t`: `t` becomes present exactly when
there is at least one article; other keys are preserved. -/
theorem foldArticles_mem (t : String) (arts : List RawArticle) (st : RunState)
    (q : String) :
    batchLookup (arts.foldl (processArticle t) st).batch q ≠ none ↔
      (batchLookup st.batch q ≠ none ∨ (q = t ∧ arts ≠ [])) := by
  induction arts generalizing st with
  | nil => simp
  | cons a as ih =>
    simp only [List.foldl_cons]
    rw [ih, processArticle_mem]
    simp only [ne_eq, List.cons_ne_nil, not_false_iff, and_true]
    tauto

/-- Processing one ticker: its key becomes present exactly when the fetch
succeeded with a non-empty item list; other keys are preserved. -/
theorem processTicker_mem (fetch : String → Except Unit (List RawArticle))
    (st : RunState) (t q : String) :
    batchLookup (processTicker fetch st t).batch q ≠ none ↔
      (batchLookup st.batch q ≠ none ∨
        (q = t ∧ ∃ news, fetch t = Except.ok news ∧ news ≠ [])) := by
  cases hf : fetch t with
  | error e => simp [processTicker, hf]
  | ok news =>
    cases news with
    | nil => simp [processTicker, hf]
    | cons a as =>
      simp [processTicker, hf, foldArticles_mem, processArticle_mem]
      tauto

/-- Folding the ticker list: a key is present afterwards iff it was
present before, or it occurs in the list and its fetch succeeded with a
non-empty item list. -/
theorem foldTickers_mem (fetch : String → Except Unit (List RawArticle))
    (tickers : List String) (st : RunState) (q : String) :
    batchLookup (tickers.foldl (processTicker fetch) st).batch q ≠ none ↔
      (batchLookup st.batch q ≠ none ∨
        (q ∈ tickers ∧ ∃ news, fetch q = Except.ok news ∧ news ≠ [])) := by
  induction tickers generalizing st with
  | nil => simp
  | cons t ts ih =>
    simp only [List.foldl_cons]
    rw [ih, processTicker_mem]
    constructor
    · rintro ((h | ⟨rfl, hq⟩) | ⟨hm, hq⟩)
      · exact Or.inl h
      · exact Or.inr ⟨List.mem_cons_self _ _, hq⟩
      · exact Or.inr ⟨List.mem_cons_of_mem _ hm, hq⟩
    · rintro (h | ⟨hm, hq⟩)
      · exact Or.inl (Or.inl h)
      · rcases List.mem_cons.mp hm with rfl | hm2
        · exact Or.inl (Or.inr ⟨rfl, hq⟩)
        · exact Or.inr ⟨hm2, hq⟩

/-- A key of the final dictionary of a run: present iff the ticker occurs
in the configured list and its fetch returned at least one raw item. -/
theorem runCollect_mem (fetch : String → Except Unit (List RawArticle))
    (tickers : List String) (seen0 : Finset String) (q : String) :
    batchLookup (runCollect fetch tickers seen0).batch q ≠ none ↔
      (q ∈ tickers ∧ ∃ news, fetch q = Except.ok news ∧ news ≠ []) := by
  unfold runCollect
  rw [foldTickers_mem]
  simp [batchLookup]

/-- Folding articles never removes anything from the seen set. -/
theorem foldArticles_seen_mono (t : String) (arts : List RawArticle)
    (st : RunState) :
    st.seen ⊆ (arts.foldl (processArticle t) st).seen := by
  induction arts generalizing st with
  | nil => exact Finset.Subset.refl _
  | cons a as ih =>
    refine Finset.Subset.trans ?_ (ih (processArticle t st a))
    rw [processArticle_seen]
    exact Finset.subset_insert _ _

/-- Processing one ticker never removes anything from the seen set. -/
theorem processTicker_seen_mono (fetch : String → Except Unit (List RawArticle))
    (st : RunState) (t : String) :
    st.seen ⊆ (processTicker fetch st t).seen := by
  cases hf : fetch t with
  | error e =>
    simp [processTicker, hf]
  | ok news =>
    cases news with
    | nil => simp [processTicker, hf]
    | cons a as =>
      simp only [processTicker, hf, List.isEmpty_cons, if_false,
        Bool.false_eq_true]
      exact foldArticles_seen_mono t (a :: as) st

/-- Folding the ticker list never removes anything from the seen set. -/
theorem foldTickers_seen_mono (fetch : String → Except Unit (List RawArticle))
    (tickers : List String) (st : RunState) :
    st.seen ⊆ (tickers.foldl (processTicker fetch) st).seen := by
  induction tickers generalizing st with
  | nil => exact Finset.Subset.refl _
  | cons t ts ih =>
    exact Finset.Subset.trans (processTicker_seen_mono fetch st t)
      (ih (processTicker fetch st t))

/-- A ticker whose fetch raises is skipped: the state is unchanged. -/
theorem processTicker_error (fetch : String → Except Unit (List RawArticle))
    (st : RunState) (t : String) (h : fetch t = Except.error ()) :
    processTicker fetch st t = st := by
  simp [processTicker, h]

/-- Skipping every occurrence of a failing ticker does not change the run:
the fold over the ticker list equals the fold over the list with that
ticker filtered out. -/
theorem foldTickers_skip_error (fetch : String → Except Unit (List RawArticle))
    (bad : String) (h : fetch bad = Except.error ())
    (tickers : List String) (st : RunState) :
    tickers.foldl (processTicker fetch) st =
      (tickers.filter (fun t => decide (t ≠ bad))).foldl
        (processTicker fetch) st := by
  induction tickers generalizing st with
  | nil => rfl
  | cons t ts ih =>
    by_cases ht : t = bad
    · subst ht
      rw [List.foldl_cons, processTicker_error fetch st _ h, List.filter_cons,
        if_neg (by simp)]
      exact ih st
    · rw [List.foldl_cons, List.filter_cons, if_pos (by simp [ht]),
        List.foldl_cons]
      exact ih (processTicker fetch st t)

/-- If every configured ticker either raises or returns no items, the
whole collection loop leaves the state unchanged. -/
theorem foldTickers_no_items (fetch : String → Except Unit (List RawArticle))
    (tickers : List String) (st : RunState)
    (h : ∀ t ∈ tickers, fetch t = Except.error () ∨ fetch t = Except.ok []) :
    tickers.foldl (processTicker fetch) st = st := by
  induction tickers generalizing st with
  | nil => rfl
  | cons t ts ih =>
    have ht := h t (List.mem_cons_self t ts)
    have hstep : processTicker fetch st t = st := by
      rcases ht with h1 | h1 <;> simp [processTicker, h1]
    rw [List.foldl_cons, hstep]
    exact ih st (fun x hx => h x (List.mem_cons_of_mem _ hx))

/-- The head surviving a `dropWhile` does not satisfy the predicate. -/
theorem head_dropWhile_false (p : Char → Bool) :
    ∀ (l : List Char) (c : Char), (l.dropWhile p).head? = some c →
      p c = false := by
  intro l
  induction l with
  | nil =>
    intro c h
    simp [List.dropWhile] at h
  | cons a t ih =>
    intro c h
    by_cases hp : p a
    · rw [List.dropWhile_cons, if_pos hp] at h
      exact ih c h
    · rw [List.dropWhile_cons, if_neg hp, List.head?_cons,
        Option.some_inj] at h
      subst h
      exact Bool.eq_false_iff.mpr hp

/-- When `dropWhile` leaves something, the last element is unchanged. -/
theorem getLast_dropWhile (p : Char → Bool) :
    ∀ (l : List Char), l.dropWhile p ≠ [] →
      (l.dropWhile p).getLast? = l.getLast? := by
  intro l
  induction l with
  | nil =>
    intro h
    simp [List.dropWhile] at h
  | cons a t ih =>
    intro h
    by_cases hp : p a
    · rw [List.dropWhile_cons, if_pos hp] at h ⊢
      have ht : t ≠ [] := by
        intro ht0
        rw [ht0] at h
        simp [List.dropWhile] at h
      rw [ih h]
      cases t with
      | nil => exact absurd rfl ht
      | cons b t2 => rw [List.getLast?_cons_cons]
    · rw [List.dropWhile_cons, if_neg hp]

/-- The first character of a stripped string is not whitespace. -/
theorem pyStrip_head (cs : List Char) (c : Char)
    (h : (pyStrip cs).head? = some c) : pyIsSpace c = false := by
  unfold pyStrip at h
  rw [List.head?_reverse] at h
  have hne : ((cs.dropWhile pyIsSpace).reverse.dropWhile pyIsSpace) ≠ [] := by
    intro h0
    rw [h0] at h
    simp at h
  rw [getLast_dropWhile pyIsSpace _ hne, List.getLast?_reverse] at h
  exact head_dropWhile_false pyIsSpace _ c h

/-- The last character of a stripped string is not whitespace. -/
theorem pyStrip_last (cs : List Char) (c : Char)
    (h : (pyStrip cs).getLast? = some c) : pyIsSpace c = false := by
  unfold pyStrip at h
  rw [List.getLast?_reverse] at h
  exact head_dropWhile_false pyIsSpace _ c h

/-- Fixture: a raw item carrying a link, a title and a summary. -/
def articleTitled : RawArticle :=
  ⟨some ⟨some ("u1"), some ("Apple rises"), some ("s1")⟩⟩

/-- Fixture: a second titled raw item, without a summary. -/
def articleTitled2 : RawArticle :=
  ⟨some ⟨some ("u3"), some ("MSFT up"), none⟩⟩

/-- Fixture: a raw item with a link but no title. -/
def articleUntitled : RawArticle :=
  ⟨some ⟨some ("u2"), none, none⟩⟩

/-- Fixture: an adapter returning one untitled item for every ticker. -/
def fetchUntitled : String → Except Unit (List RawArticle) :=
  fun _ => Except.ok [articleUntitled]

/-- Fixture: an adapter returning one titled item for every ticker. -/
def fetchTitledA : String → Except Unit (List RawArticle) :=
  fun _ => Except.ok [articleTitled]

/-- Fixture: an adapter that raises on ticker B and succeeds on A and C. -/
def fetchABC : String → Except Unit (List RawArticle) := fun t =>
  if t = "B" then Except.error ()
  else if t = "A" then Except.ok [articleTitled]
  else if t = "C" then Except.ok [articleTitled2]
  else Except.ok []

/-- Fixture: an adapter that raises on ticker A and yields no items
elsewhere. -/
def fetchErrOrEmpty : String → Except Unit (List RawArticle) := fun t =>
  if t = "A" then Except.error () else Except.ok []

/-- Fixture: the initial empty run state. -/
def st0 : RunState := { batch := [], seen := ∅ }

/-- Claim C1, counterexample: a ticker whose single returned item has no
title still appears as a key of the final dictionary, mapped to the empty
sequence — the key is created for every article before the title check, so
the claimed "present iff a titled item was accumulated" fails. -/
theorem c1_counterexample :
    titleTruthy (articleTitle articleUntitled) = false ∧
    batchLookup (runCollect fetchUntitled [("A")] ∅).batch ("A") =
      some [] := by
  decide

/-- Claim C1, amended: a ticker symbol appears as a key of the resulting
batch iff it occurs in the configured list and its adapter call succeeded
with at least one raw item, titled or not; tickers whose fetch failed or
returned no items are absent. -/
theorem c1_key_iff_some_item (fetch : String → Except Unit (List RawArticle))
    (tickers : List String) (seen0 : Finset String) (q : String) :
    batchLookup (runCollect fetch tickers seen0).batch q ≠ none ↔
      (q ∈ tickers ∧ ∃ news, fetch q = Except.ok news ∧ news ≠ []) :=
  runCollect_mem fetch tickers seen0 q

/-- Claim C2, counterexample: a run whose aggregation completes with a
non-empty batch still does not invoke the save — the `save_seen_news` call
in `main` is commented out. -/
theorem c2_counterexample :
    (mainRun (some ("AAPL")) fetchTitledA Storage.missing).batch ≠ [] ∧
    (mainRun (some ("AAPL")) fetchTitledA Storage.missing).saveInvoked =
      false := by
  decide

/-- Claim C2, amended: no run ever invokes the save operation; the updated
seen set is returned in memory but never persisted, whatever the batch
contains, because the save step of `main` is disabled in the source. -/
theorem c2_save_never_invoked (env : Option String)
    (fetch : String → Except Unit (List RawArticle)) (storage : Storage) :
    (mainRun env fetch storage).saveInvoked = false := by
  unfold mainRun mainFinish
  split <;> rfl

/-- Claim C3, counterexample: a run in which no ticker yields a titled item
(the only item lacks a title) nevertheless has a non-empty batch and does
not report "no new articles", because the untitled item created its
ticker's key. -/
theorem c3_counterexample :
    (mainRun (some ("A")) fetchUntitled Storage.missing).noNewReported =
      false ∧
    (mainRun (some ("A")) fetchUntitled Storage.missing).batch =
      [(("A"), [])] := by
  decide

/-- Claim C3, amended: when every configured ticker's adapter call raises
or returns no items at all, the resulting batch is empty, the run reports
that no new articles were found, and the seen set is not persisted. -/
theorem c3_no_items_short_circuit (env : Option String)
    (fetch : String → Except Unit (List RawArticle)) (storage : Storage)
    (h : ∀ t ∈ (get_stock_tickers env).2,
      fetch t = Except.error () ∨ fetch t = Except.ok []) :
    (mainRun env fetch storage).batch = [] ∧
    (mainRun env fetch storage).noNewReported = true ∧
    (mainRun env fetch storage).saveInvoked = false := by
  have hst : runCollect fetch (get_stock_tickers env).2
      (load_seen_news storage) =
      { batch := [], seen := load_seen_news storage } := by
    unfold runCollect
    exact foldTickers_no_items fetch _ _ h
  unfold mainRun
  rw [hst]
  exact ⟨rfl, rfl, rfl⟩

/-- Claim C3, witness: with tickers A and B, where fetching A raises and B
returns no items, the batch is empty and the short circuit reports no new
articles. -/
theorem c3_witness :
    (mainRun (some ("A,B")) fetchErrOrEmpty Storage.missing).batch = [] ∧
    (mainRun (some ("A,B")) fetchErrOrEmpty Storage.missing).noNewReported =
      true :=
  ⟨(c3_no_items_short_circuit (some ("A,B")) fetchErrOrEmpty Storage.missing
      (by decide)).1,
   (c3_no_items_short_circuit (some ("A,B")) fetchErrOrEmpty Storage.missing
      (by decide)).2.1⟩

/-- Claim C4: every raw item's extracted identifier is inserted into the
seen set unconditionally; an item with a falsy title changes no ticker's
collection, while a truthy-titled item is appended, with its extracted
title and summary, to its ticker's collection. -/
theorem c4_title_gating (t : String) (st : RunState) (a : RawArticle) :
    (processArticle t st a).seen = insert (extractUrl a) st.seen ∧
    (titleTruthy (articleTitle a) = false → ∀ q,
      (batchLookup (processArticle t st a).batch q).getD [] =
        (batchLookup st.batch q).getD []) ∧
    (titleTruthy (articleTitle a) = true →
      (batchLookup (processArticle t st a).batch t).getD [] =
        (batchLookup st.batch t).getD [] ++
          [{ title := articleTitle a, summary := articleSummary a }]) :=
  ⟨processArticle_seen t st a,
   fun h q => processArticle_getD_untitled t st a h q,
   fun h => processArticle_getD_titled t st a h⟩

/-- Claim C4, witness: instantiated on a titled and on an untitled item
over the empty state. -/
theorem c4_witness :
    (processArticle ("T") st0 articleTitled).seen =
      insert (extractUrl articleTitled) st0.seen ∧
    (batchLookup (processArticle ("T") st0 articleTitled).batch
        ("T")).getD [] =
      (batchLookup st0.batch ("T")).getD [] ++
        [{ title := articleTitle articleTitled,
           summary := articleSummary articleTitled }] ∧
    (batchLookup (processArticle ("T") st0 articleUntitled).batch
        ("T")).getD [] =
      (batchLookup st0.batch ("T")).getD [] :=
  ⟨(c4_title_gating ("T") st0 articleTitled).1,
   (c4_title_gating ("T") st0 articleTitled).2.2 (by decide),
   (c4_title_gating ("T") st0 articleUntitled).2.1 (by decide) ("T")⟩

/-- Claim C5: saving any enumeration of a finite set of identifiers and
loading the result reconstructs exactly that set. -/
theorem c5_round_trip (S : Finset String) (enum : List String)
    (h : enum.toFinset = S) :
    load_seen_news (save_seen_news enum) = S := by
  simp [load_seen_news, save_seen_news, h]

/-- Claim C5, witness: a two-element set round-trips through storage. -/
theorem c5_witness :
    ([("b"), ("a")] : List String).toFinset =
      ({("a"), ("b")} : Finset String) ∧
    load_seen_news (save_seen_news [("b"), ("a")]) =
      ({("a"), ("b")} : Finset String) :=
  ⟨by decide, c5_round_trip ({("a"), ("b")} : Finset String)
      [("b"), ("a")] (by decide)⟩

/-- Claim C6: loading from a missing file, or from an empty or structurally
invalid one, yields the empty set; the function is total, so no error is
raised. -/
theorem c6_load_fails_soft :
    load_seen_news Storage.missing = ∅ ∧
    load_seen_news Storage.invalid = ∅ :=
  ⟨rfl, rfl⟩

/-- Claim C7: a failing file write makes the save return exactly that
error to the caller (there is no handler in `save_seen_news`), while a
successful write stores the enumeration. -/
theorem c7_save_failure_propagates (e : String) (enum : List String) :
    save_seen_news_write (WriteOutcome.failed e) enum = Except.error e ∧
    save_seen_news_write WriteOutcome.ok enum =
      Except.ok (save_seen_news enum) :=
  ⟨rfl, rfl⟩

/-- Claim C8: when one ticker's fetch raises, the run equals the run over
the ticker list with that ticker removed (so it completes, and every other
ticker is still processed), the failing ticker gets no entry, and every
listed ticker whose fetch returned items still gets its entry. -/
theorem c8_ticker_failure_isolated
    (fetch : String → Except Unit (List RawArticle)) (tickers : List String)
    (seen0 : Finset String) (bad : String)
    (h : fetch bad = Except.error ()) :
    runCollect fetch tickers seen0 =
      runCollect fetch (tickers.filter (fun t => decide (t ≠ bad))) seen0 ∧
    batchLookup (runCollect fetch tickers seen0).batch bad = none ∧
    (∀ q, q ∈ tickers → (∃ news, fetch q = Except.ok news ∧ news ≠ []) →
      batchLookup (runCollect fetch tickers seen0).batch q ≠ none) := by
  refine ⟨?_, ?_, ?_⟩
  · unfold runCollect
    exact foldTickers_skip_error fetch bad h tickers _
  · by_contra hx
    rcases (runCollect_mem fetch tickers seen0 bad).mp hx with ⟨-, news, hn, -⟩
    rw [h] at hn
    exact Except.noConfusion hn
  · intro q hq hex
    exact (runCollect_mem fetch tickers seen0 q).mpr ⟨hq, hex⟩

/-- Claim C8, witness: tickers A, B, C with B raising — B has no entry and
A still has one. -/
theorem c8_witness :
    fetchABC ("B") = Except.error () ∧
    batchLookup (runCollect fetchABC [("A"), ("B"), ("C")] ∅).batch ("B") =
      none ∧
    batchLookup (runCollect fetchABC [("A"), ("B"), ("C")] ∅).batch ("A") ≠
      none :=
  ⟨rfl,
   (c8_ticker_failure_isolated fetchABC [("A"), ("B"), ("C")] ∅ ("B")
      rfl).2.1,
   (c8_ticker_failure_isolated fetchABC [("A"), ("B"), ("C")] ∅ ("B")
      rfl).2.2 ("A") (by decide) ⟨[articleTitled], rfl, by decide⟩⟩

/-- Claim C9, counterexample: with the configuration present, the returned
sequence can contain an empty ticker symbol — a trailing comma yields an
empty token after stripping. -/
theorem c9_counterexample :
    get_stock_tickers (some ("AAPL,")) = (false, [("AAPL"), ("")]) := by
  decide

/-- Claim C9, amended: an absent or empty configuration yields a warning
and the empty ticker list; a present configuration yields the
comma-separated fields with surrounding whitespace stripped — each token
starts and ends with a non-whitespace character, but a token may be empty
(for empty or all-whitespace fields). -/
theorem c9_ticker_config (s : String) :
    get_stock_tickers none = (true, []) ∧
    get_stock_tickers (some ("")) = (true, []) ∧
    (∀ t, t ∈ (get_stock_tickers (some s)).2 →
      (∀ c, t.data.head? = some c → pyIsSpace c = false) ∧
      (∀ c, t.data.getLast? = some c → pyIsSpace c = false)) := by
  refine ⟨rfl, rfl, ?_⟩
  intro t ht
  by_cases hs : s = ""
  · subst hs
    simp [get_stock_tickers] at ht
  · simp only [get_stock_tickers, hs, if_false, List.mem_map] at ht
    obtain ⟨cs, hcs, rfl⟩ := ht
    exact ⟨fun c hc => pyStrip_head cs c hc,
           fun c hc => pyStrip_last cs c hc⟩

/-- Claim C9, witness: a padded configuration yields the stripped ticker
whose first character is not whitespace. -/
theorem c9_witness :
    (("AAPL") : String) ∈ (get_stock_tickers (some (" AAPL , MSFT"))).2 ∧
    pyIsSpace ('A') = false :=
  ⟨by decide,
   ((c9_ticker_config (" AAPL , MSFT")).2.2 ("AAPL") (by decide)).1 ('A')
     (by decide)⟩

/-- Claim C10: the seen set only grows — the set after the whole collection
loop contains the set loaded at run start, and no single article step
removes an identifier. -/
theorem c10_seen_only_grows (fetch : String → Except Unit (List RawArticle))
    (tickers : List String) (seen0 : Finset String) :
    seen0 ⊆ (runCollect fetch tickers seen0).seen ∧
    ∀ (t : String) (st : RunState) (a : RawArticle),
      st.seen ⊆ (processArticle t st a).seen := by
  constructor
  · unfold runCollect
    exact foldTickers_seen_mono fetch tickers { batch := [], seen := seen0 }
  · intro t st a
    rw [processArticle_seen]
    exact Finset.subset_insert _ _

end StockNews
